import Mathlib

/-!
Verification development for the Docker-registry image materializer
(`src/builder/commands/docker.rs`): the image-reference parser, the
whiteout-aware layer extractor, the download/unpack pipeline and the
blob cache, shallowly embedded in Lean.

Strings are modelled as Lean `String`s of ASCII characters, so character
positions and byte positions coincide (every string the code manipulates
is a hostname, a path component or a hex digest).
-/

namespace Docker

/-! ## String helpers (models of Rust `str` methods) -/

/-- Model of Rust `str::strip_prefix` on character lists: returns the
remainder when the first argument is a prefix of the second. -/
def stripPrefixCh : List Char → List Char → Option (List Char)
  | [], s => some s
  | _ :: _, [] => none
  | c :: p, d :: s => if c = d then stripPrefixCh p s else none

/-- Model of Rust `str::strip_prefix`. -/
def stripPrefixStr (pre s : String) : Option String :=
  (stripPrefixCh pre.toList s.toList).map (fun l => String.mk l)

/-- Model of Rust `str::split_once` on character lists: splits at the first
occurrence of `sep`, which is dropped. -/
def splitOnceCh (sep : Char) : List Char → Option (List Char × List Char)
  | [] => none
  | c :: rest =>
    if c = sep then some ([], rest)
    else (splitOnceCh sep rest).map (fun pr => (c :: pr.1, pr.2))

/-- Model of Rust `str::split_once`. -/
def splitOnce (sep : Char) (s : String) : Option (String × String) :=
  (splitOnceCh sep s.toList).map (fun pr => (String.mk pr.1, String.mk pr.2))

/-- Model of Rust `str::rsplit_once`: splits at the last occurrence of `sep`.
Rust returns `(before, after)`; so do we. -/
def rsplitOnce (sep : Char) (s : String) : Option (String × String) :=
  (splitOnceCh sep s.toList.reverse).map
    (fun pr => (String.mk pr.2.reverse, String.mk pr.1.reverse))

/-- Model of Rust `str::contains(char)`. -/
def containsChar (c : Char) (s : String) : Bool :=
  s.toList.any (fun d => d = c)

/-! ## Reference parser (`parse_image`, docker.rs lines 65-109)

`parse_image` receives the raw scalar and returns a key/value map that the
`quire` structure validator merges with the declared defaults.  We model the
map as an `ImageAst` record of the three keys the function may insert
(`registry`, `tag`, `image`); a `none` field means the key is absent and the
default declared in `DockerImage::config` (lines 54-62) applies. -/

def DEFAULT_REGISTRY_HOST : String := "registry-1.docker.io"
def DEFAULT_IMAGE_NAMESPACE : String := "library"
def DEFAULT_IMAGE_TAG : String := "latest"

structure ImageAst where
  registry : Option String
  tag : Option String
  image : String
deriving DecidableEq, Repr

/-- Model of `parse_image` (docker.rs lines 65-109) on the scalar case. -/
def parse_image (value : String) : ImageAst :=
  let step1 : String × Option String :=
    match splitOnce '/' value with
    | some (registry, image) =>
      if registry = "localhost" || registry.toList.any (fun c => c = '.' || c = ':') then
        (image, some registry)
      else
        (value, none)
    | none => (value, none)
  let image := step1.1
  let registry := step1.2
  let step2 : String × Option String :=
    match rsplitOnce ':' image with
    | some (image, tag) => (image, some tag)
    | none => (image, none)
  let image := step2.1
  let tag := step2.2
  let image :=
    if !(containsChar '/' image) && registry.isNone then
      DEFAULT_IMAGE_NAMESPACE ++ "/" ++ image
    else
      image
  { registry := registry, tag := tag, image := image }

structure DockerImageCfg where
  registry : String
  tag : String
  image : String
deriving DecidableEq, Repr

/-- The structured fields after the `quire` validator applies the defaults
declared in `DockerImage::config` (docker.rs lines 54-62) to the map
produced by `parse_image`. -/
def resolve_image (value : String) : DockerImageCfg :=
  let ast := parse_image value
  { registry := ast.registry.getD DEFAULT_REGISTRY_HOST
    tag := ast.tag.getD DEFAULT_IMAGE_TAG
    image := ast.image }

/-! ## Filesystem model for the layer extractor

The destination tree is modelled as an association list from paths
(component lists) to node kinds.  Removal operations delete every binding
of the affected path(s); materialization shadows any previous binding. -/

abbrev PathC := List String

inductive NodeKind where
  | file
  | dir
deriving DecidableEq, Repr

abbrev Fs := List (PathC × NodeKind)

def lookupNode : Fs → PathC → Option NodeKind
  | [], _ => none
  | n :: rest, p => if n.1 = p then some n.2 else lookupNode rest p

def pathExists (fs : Fs) (p : PathC) : Bool :=
  (lookupNode fs p).isSome

/-- Model of `Path::is_dir` for the destination tree. -/
def is_dir (fs : Fs) (p : PathC) : Bool :=
  match lookupNode fs p with
  | some NodeKind.dir => true
  | _ => false

/-- Model of `std::fs::remove_file`: deletes a single non-directory node;
a missing path is the `NotFound` error, a directory `Is a directory`. -/
def remove_file (fs : Fs) (p : PathC) : Except String Fs :=
  match lookupNode fs p with
  | some NodeKind.file => .ok (fs.filter (fun n => n.1 ≠ p))
  | some NodeKind.dir => .error "Is a directory"
  | none => .error "No such file or directory"

/-- Model of `std::fs::remove_dir_all`: deletes a directory and everything
under it (every path having `p` as a prefix). -/
def remove_dir_all (fs : Fs) (p : PathC) : Except String Fs :=
  match lookupNode fs p with
  | some NodeKind.dir => .ok (fs.filter (fun n => !(p.isPrefixOf n.1)))
  | some NodeKind.file => .error "Not a directory"
  | none => .error "No such file or directory"

/-- Modelled from the spec: `clean_dir` lives in `container/util`, which is
not under `src/`; the spec says the opaque branch "empties the parent
directory (deletes all its current entries)", the second argument selecting
whether the directory itself is removed too (the extractor passes `false`:
the directory is kept). -/
def clean_dir (fs : Fs) (p : PathC) (removeItself : Bool) : Except String Fs :=
  .ok (fs.filter (fun n => !(p.isPrefixOf n.1 && (removeItself || n.1 ≠ p))))

/-! ## Whiteout handling (`whiteout_entry_handler`, docker.rs lines 170-203) -/

inductive TarKind where
  | regular
  | directory
  | symlink
  | other
deriving DecidableEq, Repr

/-- Model of `whiteout_entry_handler` (docker.rs lines 170-203).  `dst_path`
is the destination path of the tar entry; the result is `Ok (true, fs)` when
the entry was consumed as a whiteout (and must not be materialized),
`Ok (false, fs)` when the entry is not a whiteout and is to be unpacked
normally. -/
def whiteout_entry_handler (entryType : TarKind) (dst_path : PathC) (fs : Fs) :
    Except String (Bool × Fs) :=
  match dst_path.getLast? with
  | none => .ok (false, fs)
  | some file_name =>
    if entryType ≠ TarKind.regular then .ok (false, fs)
    else
      match stripPrefixStr ".wh." file_name with
      | none => .ok (false, fs)
      | some whiteout =>
        let dir := dst_path.dropLast
        if whiteout = ".wh..opq" then
          match clean_dir fs dir false with
          | .error e => .error e
          | .ok fs2 => .ok (true, fs2)
        else
          let whiteout_path := dir ++ [whiteout]
          if is_dir fs whiteout_path then
            match remove_dir_all fs whiteout_path with
            | .error e => .error ("Cannot remove directory: " ++ e)
            | .ok fs2 => .ok (true, fs2)
          else
            match remove_file fs whiteout_path with
            | .error e => .error ("Cannot delete file: " ++ e)
            | .ok fs2 => .ok (true, fs2)

/-! ## Layer unpacking (`TarCmd` + `unpack_layer`)

`TarCmd` (builder/commands/tarcmd.rs) is not under `src/`. -/

structure TarEntry where
  kind : TarKind
  path : PathC
deriving DecidableEq, Repr

def nodeOfKind : TarKind → NodeKind
  | TarKind.directory => NodeKind.dir
  | _ => NodeKind.file

/-- Modelled from the spec: normal materialization of one tar entry by
`TarCmd` ("unpack the entry normally"): the node appears at the entry's
path, shadowing any previous node there. -/
def materialize (fs : Fs) (e : TarEntry) : Fs :=
  (e.path, nodeOfKind e.kind) :: fs.filter (fun n => n.1 ≠ e.path)

/-- Modelled from the spec: `TarCmd::unpack` with `whiteout_entry_handler`
installed consults the handler for each entry; a `true` result means the
entry was handled (skipped), otherwise it is unpacked normally. -/
def applyEntry (fs : Fs) (e : TarEntry) : Except String Fs :=
  match whiteout_entry_handler e.kind e.path fs with
  | .error msg => .error msg
  | .ok (true, fs2) => .ok fs2
  | .ok (false, fs2) => .ok (materialize fs2 e)

/-- One layer: entries are processed in tar order, aborting on error. -/
def applyLayer (fs : Fs) : List TarEntry → Except String Fs
  | [] => .ok fs
  | e :: rest =>
    match applyEntry fs e with
    | .error m => .error m
    | .ok fs2 => applyLayer fs2 rest

/-- All layers of a manifest, base to top. -/
def unpack_layers (fs : Fs) : List (List TarEntry) → Except String Fs
  | [] => .ok fs
  | l :: rest =>
    match applyLayer fs l with
    | .error m => .error m
    | .ok fs2 => unpack_layers fs2 rest

/-- A path whose final component carries the `.wh.` whiteout prefix. -/
def whNamedPath (p : PathC) : Bool :=
  match p.getLast? with
  | some f => (stripPrefixStr ".wh." f).isSome
  | none => false

/-! ## Pipeline coordinator (`download_and_unpack_image`, docker.rs lines 206-287)

For each digest, in manifest order, the coordinator creates a oneshot
channel and spawns a download task that sends `(digest, layer_path)` on it;
the receivers are pushed into `unpack_channels` in the same manifest order.
A oneshot receiver yields the sent value whenever the send happened, and an
error when the sender was dropped (the download failed before sending), so
a channel's content is a function of the download's outcome alone — the
completion order of downloads does not appear.  We therefore model channel
`i` as `Option (String × String)`: `some (digest, path)` when that layer's
download sent, `none` when it failed. -/

def channelsOf (digests : List String) (res : String → Option String) :
    List (Option (String × String)) :=
  digests.map (fun d => (res d).map (fun p => (d, p)))

/-- Model of the unpack worker task (docker.rs lines 252-267): it traverses
`unpack_channels` in order; for each, on a received value it runs
`unpack_layer` (whose outcome we abstract as `unpackRes digest`), aborting
on an unpack failure or a broken channel.  The first component of the
result is the sequence of digests whose unpack *began*, in order. -/
def unpackWorker (unpackRes : String → Except String Unit) :
    List (Option (String × String)) → List String × Except String Unit
  | [] => ([], .ok ())
  | none :: _ => ([], .error "Error waiting downloaded layer")
  | some (digest, _path) :: rest =>
    match unpackRes digest with
    | .error e => ([digest], .error e)
    | .ok _ =>
      let r := unpackWorker unpackRes rest
      (digest :: r.1, r.2)

/-- The error type the coordinator returns (`StepError`): either a single
message or the accumulated list of download errors (`Vec<String>: Into<StepError>`). -/
inductive StepErrorM where
  | msg : String → StepErrorM
  | errorList : List String → StepErrorM
deriving DecidableEq, Repr

/-- Model of the collection loop over `join_all(layers_futures)`
(docker.rs lines 269-277): each task result is
`Result<Result<Path, String>, JoinError>`; successes accumulate into
`layers_paths`, download errors and join errors into `layers_errors`. -/
def collectLayerResults (rs : List (Except String (Except String String))) :
    List String × List String :=
  match rs with
  | [] => ([], [])
  | r :: rest =>
    let acc := collectLayerResults rest
    match r with
    | .ok (.ok layer) => (layer :: acc.1, acc.2)
    | .ok (.error clientErr) => (acc.1, clientErr :: acc.2)
    | .error joinErr => (acc.1, joinErr :: acc.2)

/-- Model of the tail of `download_and_unpack_image` (docker.rs lines
269-287): download results are collected first, then the unpack worker is
joined — `unpack_future.await??` propagates a join error or the worker's
own error immediately, and only afterwards are accumulated download
errors surfaced. -/
def download_and_unpack_result
    (rs : List (Except String (Except String String)))
    (unpackJoin : Except String (Except String Unit)) : Except StepErrorM Unit :=
  let layers_errors := (collectLayerResults rs).2
  match unpackJoin with
  | .error joinErr => .error (.msg ("Error waiting unpack future: " ++ joinErr))
  | .ok (.error unpackErr) => .error (.msg unpackErr)
  | .ok (.ok _) =>
    if layers_errors.isEmpty then .ok ()
    else .error (.errorList layers_errors)

/-! ## Blob cache (`download_blob`, docker.rs lines 324-374)

The world records the set of file names present in the layers-cache
directory, counters of lock acquisitions and network operations
(`get_blob_stream` calls), and whether the network delivers the blob
(`netOk = false`: a chunk of the stream fails mid-download). -/

structure World where
  cache : List String
  lockOps : Nat
  netOps : Nat
  netOk : Bool
deriving DecidableEq, Repr

inductive DlResult where
  | panics : DlResult
  | err : String → World → DlResult
  | ok : String → World → DlResult
deriving DecidableEq, Repr

/-- Model of `download_blob` (docker.rs lines 324-374).

* no `:` in the digest — return the `Invalid layer digest` error;
* `&digest[..12]` — Rust byte-slicing panics when the suffix is shorter
  than 12 bytes (modelled by `DlResult.panics`);
* final path present (`symlink_metadata` succeeds) — return it untouched;
* otherwise take the exclusive lock, re-check, then stream the blob into
  `.<name>.tmp` and rename it onto the final path; a failing stream leaves
  the temp file and no final file. -/
def download_blob (w : World) (layer_digest : String) : DlResult :=
  match splitOnce ':' layer_digest with
  | none => .err ("Invalid layer digest: " ++ layer_digest) w
  | some (_algo, digest) =>
    if digest.length < 12 then .panics
    else
      let blob_file_name := digest ++ ".tar.gz"
      if blob_file_name ∈ w.cache then .ok blob_file_name w
      else
        let w1 : World := { w with lockOps := w.lockOps + 1 }
        if blob_file_name ∈ w1.cache then .ok blob_file_name w1
        else
          let blob_tmp_file_name := "." ++ blob_file_name ++ ".tmp"
          let w2 : World := { w1 with netOps := w1.netOps + 1 }
          if w.netOk then
            .ok blob_file_name
              { w2 with
                cache := blob_file_name :: w2.cache.filter (fun f => f ≠ blob_tmp_file_name) }
          else
            .err "Error fetching layer chunk"
              { w2 with cache := blob_tmp_file_name :: w2.cache.filter (fun f => f ≠ blob_tmp_file_name) }

end Docker

namespace Docker

example :
    download_blob { cache := ["ab12cd34ef56.tar.gz"], lockOps := 0, netOps := 0, netOk := true }
      "sha256:ab12cd34ef56" =
    .ok "ab12cd34ef56.tar.gz"
      { cache := ["ab12cd34ef56.tar.gz"], lockOps := 0, netOps := 0, netOk := true } := rfl

example :
    download_blob { cache := [], lockOps := 0, netOps := 0, netOk := false }
      "sha256:ab12cd34ef56" =
    .err "Error fetching layer chunk"
      { cache := [".ab12cd34ef56.tar.gz.tmp"], lockOps := 1, netOps := 1, netOk := false } := rfl

example : download_blob { cache := [], lockOps := 0, netOps := 0, netOk := true } "nodigest" =
    .err "Invalid layer digest: nodigest"
      { cache := [], lockOps := 0, netOps := 0, netOk := true } := rfl

example : download_blob { cache := [], lockOps := 0, netOps := 0, netOk := true } "sha256:short" =
    .panics := rfl

example :
    unpackWorker (fun _ => .ok ())
      (channelsOf ["d1", "d2", "d3"] (fun d => if d = "d2" then none else some (d ++ ".tar.gz"))) =
    (["d1"], .error "Error waiting downloaded layer") := rfl

example :
    download_and_unpack_result [.ok (.error "boom"), .ok (.ok "p1")] (.ok (.error "unpack broke")) =
    .error (.msg "unpack broke") := rfl

/-! ## Helper lemmas -/

theorem stripPrefixCh_append (p s : List Char) : stripPrefixCh p (p ++ s) = some s := by
  induction p with
  | nil => rfl
  | cons c cs ih => simp [stripPrefixCh, ih]

theorem stripPrefixStr_append (pre b : String) : stripPrefixStr pre (pre ++ b) = some b := by
  unfold stripPrefixStr
  have h : (pre ++ b).toList = pre.toList ++ b.toList := by simp
  rw [h, stripPrefixCh_append]
  rfl

theorem splitOnceCh_eq_none (sep : Char) (l : List Char) (h : sep ∉ l) :
    splitOnceCh sep l = none := by
  induction l with
  | nil => rfl
  | cons c rest ih =>
    simp only [List.mem_cons, not_or] at h
    have hc : ¬(c = sep) := fun he => h.1 he.symm
    simp [splitOnceCh, hc, ih h.2]

theorem containsChar_eq_false (c : Char) (s : String) (h : c ∉ s.toList) :
    containsChar c s = false := by
  unfold containsChar
  rw [List.any_eq_false]
  intro d hd
  simp only [decide_eq_true_eq]
  exact fun he => h (he ▸ hd)

/-- Unfolding of `whiteout_entry_handler` on a regular-file whiteout entry
`dir/. wh.b` (the file's name is `".wh." ++ b`). -/
theorem handler_wh_unfold (fs : Fs) (dir : PathC) (b : String) :
    whiteout_entry_handler TarKind.regular (dir ++ [".wh." ++ b]) fs =
      (if b = ".wh..opq" then
        match clean_dir fs dir false with
        | .error e => .error e
        | .ok fs2 => .ok (true, fs2)
      else
        if is_dir fs (dir ++ [b]) then
          match remove_dir_all fs (dir ++ [b]) with
          | .error e => .error ("Cannot remove directory: " ++ e)
          | .ok fs2 => .ok (true, fs2)
        else
          match remove_file fs (dir ++ [b]) with
          | .error e => .error ("Cannot delete file: " ++ e)
          | .ok fs2 => .ok (true, fs2)) := by
  unfold whiteout_entry_handler
  rw [List.getLast?_concat, List.dropLast_concat]
  simp only []
  rw [if_neg (show ¬(TarKind.regular ≠ TarKind.regular) by simp), stripPrefixStr_append]

theorem clean_dir_sub {fs : Fs} {p : PathC} {r : Bool} {fs2 : Fs}
    (h : clean_dir fs p r = .ok fs2) : ∀ n ∈ fs2, n ∈ fs := by
  unfold clean_dir at h
  simp only [Except.ok.injEq] at h
  intro n hn
  rw [← h] at hn
  exact (List.mem_filter.mp hn).1

theorem remove_file_sub {fs : Fs} {p : PathC} {fs2 : Fs}
    (h : remove_file fs p = .ok fs2) : ∀ n ∈ fs2, n ∈ fs := by
  unfold remove_file at h
  split at h
  · simp only [Except.ok.injEq] at h
    intro n hn
    rw [← h] at hn
    exact (List.mem_filter.mp hn).1
  · simp at h
  · simp at h

theorem remove_dir_all_sub {fs : Fs} {p : PathC} {fs2 : Fs}
    (h : remove_dir_all fs p = .ok fs2) : ∀ n ∈ fs2, n ∈ fs := by
  unfold remove_dir_all at h
  split at h
  · simp only [Except.ok.injEq] at h
    intro n hn
    rw [← h] at hn
    exact (List.mem_filter.mp hn).1
  · simp at h
  · simp at h

/-- A successful handler run either consumed a whiteout, in which case the
resulting tree is a subset of the input tree, or declined (`false`), in
which case the tree is untouched. -/
theorem handler_result_sub {k : TarKind} {p : PathC} {fs : Fs} {b : Bool} {fs2 : Fs}
    (h : whiteout_entry_handler k p fs = .ok (b, fs2)) :
    (b = false → fs2 = fs) ∧ (∀ n ∈ fs2, n ∈ fs) := by
  unfold whiteout_entry_handler at h
  split at h
  · simp only [Except.ok.injEq, Prod.mk.injEq] at h
    exact ⟨fun _ => h.2.symm, fun n hn => h.2 ▸ hn⟩
  · split at h
    · simp only [Except.ok.injEq, Prod.mk.injEq] at h
      exact ⟨fun _ => h.2.symm, fun n hn => h.2 ▸ hn⟩
    · split at h
      · simp only [Except.ok.injEq, Prod.mk.injEq] at h
        exact ⟨fun _ => h.2.symm, fun n hn => h.2 ▸ hn⟩
      · split at h
        · simp only [] at h
          split at h
          · simp at h
          · rename_i fs3 heq
            simp only [Except.ok.injEq, Prod.mk.injEq] at h
            refine ⟨fun hb => by simp [hb] at h, ?_⟩
            intro n hn
            exact clean_dir_sub heq n (h.2 ▸ hn)
        · simp only [] at h
          split at h
          · split at h
            · simp at h
            · rename_i fs3 heq
              simp only [Except.ok.injEq, Prod.mk.injEq] at h
              refine ⟨fun hb => by simp [hb] at h, ?_⟩
              intro n hn
              exact remove_dir_all_sub heq n (h.2 ▸ hn)
          · split at h
            · simp at h
            · rename_i fs3 heq
              simp only [Except.ok.injEq, Prod.mk.injEq] at h
              refine ⟨fun hb => by simp [hb] at h, ?_⟩
              intro n hn
              exact remove_file_sub heq n (h.2 ▸ hn)

/-- On a regular entry whose file name bears the `.wh.` prefix the handler
never declines: it consumes the entry or fails. -/
theorem handler_regular_wh_not_false {p : PathC} {fs fs2 : Fs}
    (hw : whNamedPath p = true) :
    whiteout_entry_handler TarKind.regular p fs ≠ .ok (false, fs2) := by
  intro h
  unfold whNamedPath at hw
  unfold whiteout_entry_handler at h
  cases hgl : p.getLast? with
  | none => rw [hgl] at hw; simp at hw
  | some f =>
    rw [hgl] at hw h
    simp only [Option.isSome_iff_exists] at hw
    rcases hw with ⟨wh, hwh⟩
    simp only [] at h
    rw [if_neg (show ¬(TarKind.regular ≠ TarKind.regular) by simp)] at h
    rw [hwh] at h
    simp only [] at h
    split at h
    · split at h
      · simp at h
      · simp at h
    · split at h
      · split at h
        · simp at h
        · simp at h
      · split at h
        · simp at h
        · simp at h

end Docker

namespace Docker

/-! ## Claim theorems -/

/-- Applying one entry preserves the absence of `.wh.`-named nodes,
provided a `.wh.`-named entry can only be a regular file. -/
theorem applyEntry_noWh {fs fs2 : Fs} {e : TarEntry}
    (hfs : ∀ n ∈ fs, whNamedPath n.1 = false)
    (he : whNamedPath e.path = true → e.kind = TarKind.regular)
    (h : applyEntry fs e = .ok fs2) :
    ∀ n ∈ fs2, whNamedPath n.1 = false := by
  unfold applyEntry at h
  cases hh : whiteout_entry_handler e.kind e.path fs with
  | error m =>
    rw [hh] at h
    simp at h
  | ok pr =>
    obtain ⟨b, fs3⟩ := pr
    rw [hh] at h
    cases b with
    | true =>
      simp only [Except.ok.injEq] at h
      intro n hn
      exact hfs n ((handler_result_sub hh).2 n (h ▸ hn))
    | false =>
      have hfs3 : fs3 = fs := (handler_result_sub hh).1 rfl
      subst hfs3
      simp only [Except.ok.injEq] at h
      have hwp : whNamedPath e.path = false := by
        cases hwp : whNamedPath e.path with
        | false => rfl
        | true =>
          have hk := he hwp
          exact absurd (hk ▸ hh) (handler_regular_wh_not_false hwp)
      intro n hn
      rw [← h] at hn
      unfold materialize at hn
      rcases List.mem_cons.mp hn with heq | htl
      · rw [heq]
        exact hwp
      · exact hfs n (List.mem_filter.mp htl).1

/-- Applying one layer's entries preserves the absence of `.wh.`-named
nodes, provided every `.wh.`-named entry of the layer is a regular file. -/
theorem applyLayer_noWh : ∀ (es : List TarEntry) (fs fs2 : Fs),
    (∀ n ∈ fs, whNamedPath n.1 = false) →
    (∀ e ∈ es, whNamedPath e.path = true → e.kind = TarKind.regular) →
    applyLayer fs es = .ok fs2 → ∀ n ∈ fs2, whNamedPath n.1 = false := by
  intro es
  induction es with
  | nil =>
    intro fs fs2 hfs _ h
    unfold applyLayer at h
    simp only [Except.ok.injEq] at h
    exact h ▸ hfs
  | cons e rest ih =>
    intro fs fs2 hfs hes h
    unfold applyLayer at h
    cases hae : applyEntry fs e with
    | error m =>
      rw [hae] at h
      simp at h
    | ok fsm =>
      rw [hae] at h
      simp only [] at h
      exact ih fsm fs2 (applyEntry_noWh hfs (hes e (by simp)) hae)
        (fun e2 h2 => hes e2 (List.mem_cons_of_mem _ h2)) h

/-- C2: the unpack worker consumes the per-layer handoff channels in
manifest order, so the sequence of layers whose unpack begins is an
in-order prefix of the manifest's digest list.  Download completion order
does not appear anywhere in the model: a oneshot channel's content is a
function `res` of the layer alone, so the worker's traversal — and hence
the unpack order — is fixed at pipeline setup; layer `i+1`'s unpack begins
only after the worker has finished awaiting layer `i`'s unpack. -/
theorem c2_strict_unpack_order (digests : List String) (res : String → Option String)
    (unpackRes : String → Except String Unit) :
    List.IsPrefix (unpackWorker unpackRes (channelsOf digests res)).1 digests := by
  induction digests with
  | nil => simp [channelsOf, unpackWorker]
  | cons d rest ih =>
    have hch : channelsOf (d :: rest) res =
        ((res d).map fun p => (d, p)) :: channelsOf rest res := rfl
    rw [hch]
    cases hres : res d with
    | none =>
      exact List.nil_prefix
    | some p =>
      simp only [Option.map_some']
      have hw : unpackWorker unpackRes (some (d, p) :: channelsOf rest res) =
          match unpackRes d with
          | .error e => ([d], .error e)
          | .ok _ =>
            let r := unpackWorker unpackRes (channelsOf rest res)
            (d :: r.1, r.2) := rfl
      cases hup : unpackRes d with
      | error e =>
        rw [hw, hup]
        exact ⟨rest, rfl⟩
      | ok u =>
        rw [hw, hup]
        rcases ih with ⟨t, ht⟩
        refine ⟨t, ?_⟩
        show d :: (unpackWorker unpackRes (channelsOf rest res)).1 ++ t = d :: rest
        rw [List.cons_append, ht]

/-- C8: when the unpack worker failed, its error is surfaced regardless of
accumulated download errors; the download errors are surfaced only when
the joined unpack worker succeeded. -/
theorem c8_unpack_error_precedence (rs : List (Except String (Except String String)))
    (hdl : (collectLayerResults rs).2 ≠ []) :
    (∀ e, download_and_unpack_result rs (.ok (.error e)) = .error (.msg e)) ∧
    download_and_unpack_result rs (.ok (.ok ())) =
      .error (.errorList (collectLayerResults rs).2) := by
  refine ⟨fun e => rfl, ?_⟩
  unfold download_and_unpack_result
  cases h : (collectLayerResults rs).2 with
  | nil => exact absurd h hdl
  | cons a t => simp [h]

/-- C8 witness: with one failed download and a failed unpack worker, the
unpack worker's error is the surfaced one. -/
theorem c8_witness :
    download_and_unpack_result [.ok (.error "dl failed")] (.ok (.error "unpack broke")) =
      .error (.msg "unpack broke") :=
  (c8_unpack_error_precedence [.ok (.error "dl failed")] (by decide)).1 "unpack broke"

/-- C10: `download_blob` returns the `Invalid layer digest` error whenever
the digest contains no `:`, but panics (out-of-range byte slice
`&digest[..12]`) whenever the suffix after the first `:` is shorter than
12 bytes; reaching any non-panicking branch requires a suffix of at least
12 bytes. -/
theorem c10_digest_shape (w : World) (ld : String) :
    (splitOnce ':' ld = none →
      download_blob w ld = .err ("Invalid layer digest: " ++ ld) w) ∧
    (∀ algo digest, splitOnce ':' ld = some (algo, digest) → digest.length < 12 →
      download_blob w ld = .panics) := by
  constructor
  · intro h
    unfold download_blob
    rw [h]
  · intro algo digest h hlen
    unfold download_blob
    rw [h]
    simp [hlen]

/-- C10 witness: `sha256:short` has a 5-byte suffix and panics. -/
theorem c10_witness :
    download_blob { cache := [], lockOps := 0, netOps := 0, netOk := true } "sha256:short" =
      .panics :=
  (c10_digest_shape { cache := [], lockOps := 0, netOps := 0, netOk := true }
    "sha256:short").2 "sha256" "short" rfl (by decide)

/-- C6: when the final cache path `<hexdigest>.tar.gz` already exists,
`download_blob` returns it with the world unchanged — no lock acquisition
and no network operation — and consequently a second invocation after any
successful one returns the same path with no further effect at all. -/
theorem c6_cache_idempotent (w : World) (ld algo digest : String)
    (hsplit : splitOnce ':' ld = some (algo, digest)) (hlen : 12 ≤ digest.length) :
    ((digest ++ ".tar.gz") ∈ w.cache → download_blob w ld = .ok (digest ++ ".tar.gz") w) ∧
    (∀ p w2, download_blob w ld = .ok p w2 → download_blob w2 ld = .ok p w2) := by
  have hnot : ¬digest.length < 12 := Nat.not_lt.mpr hlen
  constructor
  · intro hmem
    unfold download_blob
    rw [hsplit]
    simp [hnot, hmem]
  · intro p w2 h
    unfold download_blob at h ⊢
    rw [hsplit] at h ⊢
    simp only [if_neg hnot] at h ⊢
    by_cases hm : (digest ++ ".tar.gz") ∈ w.cache
    · simp only [if_pos hm, DlResult.ok.injEq] at h
      rcases h with ⟨hp, hw⟩
      subst hp hw
      simp [hm]
    · simp only [if_neg hm] at h
      by_cases hn : w.netOk
      · simp only [if_pos hm, if_neg hm, if_pos hn, DlResult.ok.injEq] at h
        rcases h with ⟨hp, hw⟩
        subst hp
        subst hw
        simp
      · simp [if_neg hm, hn] at h

/-- C6 witness: a cache hit returns the path with the world untouched. -/
theorem c6_witness :
    download_blob { cache := ["ab12cd34ef56.tar.gz"], lockOps := 0, netOps := 0, netOk := true }
        "sha256:ab12cd34ef56" =
      .ok ("ab12cd34ef56" ++ ".tar.gz")
        { cache := ["ab12cd34ef56.tar.gz"], lockOps := 0, netOps := 0, netOk := true } :=
  (c6_cache_idempotent
    { cache := ["ab12cd34ef56.tar.gz"], lockOps := 0, netOps := 0, netOk := true }
    "sha256:ab12cd34ef56" "sha256" "ab12cd34ef56" rfl (by decide)).1 (by decide)

/-- C7: when the final blob path is absent, a failed download never
creates it (the partial content lives only in the `.<name>.tmp` sibling),
and a successful fresh download implies the stream completed
(`netOk = true`) with the final path appearing only then. -/
theorem c7_atomic_visibility (w : World) (ld algo digest : String)
    (hsplit : splitOnce ':' ld = some (algo, digest)) (hlen : 12 ≤ digest.length)
    (hmiss : (digest ++ ".tar.gz") ∉ w.cache) :
    (∀ m w2, download_blob w ld = .err m w2 → (digest ++ ".tar.gz") ∉ w2.cache) ∧
    (∀ p w2, download_blob w ld = .ok p w2 →
      w.netOk = true ∧ p = digest ++ ".tar.gz" ∧ (digest ++ ".tar.gz") ∈ w2.cache) := by
  have hnot : ¬digest.length < 12 := Nat.not_lt.mpr hlen
  have hneq : digest ++ ".tar.gz" ≠ "." ++ (digest ++ ".tar.gz") ++ ".tmp" := by
    intro he
    have hlen2 := congrArg String.length he
    simp only [String.length_append,
      show ("." : String).length = 1 from rfl,
      show (".tmp" : String).length = 4 from rfl,
      show (".tar.gz" : String).length = 7 from rfl] at hlen2
    omega
  constructor
  · intro m w2 h
    unfold download_blob at h
    rw [hsplit] at h
    simp only [if_neg hnot, if_neg hmiss] at h
    by_cases hn : w.netOk
    · simp [if_neg hmiss, hn] at h
    · simp only [if_neg hmiss, hn, if_neg (Bool.false_ne_true ∘ id), if_false,
        DlResult.err.injEq] at h
      rcases h with ⟨_, hw⟩
      subst hw
      intro hmem
      rcases List.mem_cons.mp hmem with heq | htl
      · exact hneq heq
      · exact hmiss (List.mem_filter.mp htl).1
  · intro p w2 h
    unfold download_blob at h
    rw [hsplit] at h
    simp only [if_neg hnot, if_neg hmiss] at h
    by_cases hn : w.netOk
    · simp only [if_neg hmiss, hn, if_pos rfl, if_true, DlResult.ok.injEq] at h
      rcases h with ⟨hp, hw⟩
      subst hp
      subst hw
      exact ⟨hn, rfl, List.mem_cons_self _ _⟩
    · simp [if_neg hmiss, hn] at h

/-- C7 witness: a fresh successful download yields the final path, present
only after the completed stream. -/
theorem c7_witness :
    ({ cache := [], lockOps := 0, netOps := 0, netOk := true } : World).netOk = true ∧
    "ab12cd34ef56.tar.gz" = "ab12cd34ef56" ++ ".tar.gz" ∧
    ("ab12cd34ef56" ++ ".tar.gz") ∈
      (({ cache := ["ab12cd34ef56.tar.gz"], lockOps := 1, netOps := 1, netOk := true } : World)).cache :=
  (c7_atomic_visibility { cache := [], lockOps := 0, netOps := 0, netOk := true }
    "sha256:ab12cd34ef56" "sha256" "ab12cd34ef56" rfl (by decide) (by decide)).2
    "ab12cd34ef56.tar.gz"
    { cache := ["ab12cd34ef56.tar.gz"], lockOps := 1, netOps := 1, netOk := true } rfl

/-- C9: a bare scalar image name — no `/` (hence no registry part) and no
`:` (hence no tag) — parses to the `library/` namespace with the default
registry host and default tag. -/
theorem c9_namespace_defaulting (s : String) (h1 : '/' ∉ s.toList) (h2 : ':' ∉ s.toList) :
    resolve_image s =
      { registry := DEFAULT_REGISTRY_HOST, tag := DEFAULT_IMAGE_TAG,
        image := DEFAULT_IMAGE_NAMESPACE ++ "/" ++ s } := by
  have hs : splitOnce '/' s = none := by
    unfold splitOnce
    rw [splitOnceCh_eq_none _ _ h1]
    rfl
  have hr : rsplitOnce ':' s = none := by
    unfold rsplitOnce
    rw [splitOnceCh_eq_none ':' s.toList.reverse (by simpa using h2)]
    rfl
  have hc : containsChar '/' s = false := containsChar_eq_false _ _ h1
  unfold resolve_image parse_image
  rw [hs]
  simp only [hr, hc]
  simp

/-- C9 witness: `foo` resolves to `library/foo` with the defaults. -/
theorem c9_witness :
    resolve_image "foo" =
      { registry := "registry-1.docker.io", tag := "latest", image := "library/foo" } :=
  c9_namespace_defaulting "foo" (by decide) (by decide)

theorem lookupNode_filter_none (fs : Fs) (p : PathC) (pred : PathC × NodeKind → Bool)
    (h : ∀ n, pred n = true → n.1 ≠ p) : lookupNode (fs.filter pred) p = none := by
  induction fs with
  | nil => rfl
  | cons n rest ih =>
    by_cases hp : pred n = true
    · rw [List.filter_cons_of_pos hp]
      unfold lookupNode
      rw [if_neg (h n hp)]
      exact ih
    · rw [List.filter_cons_of_neg (by simpa using hp)]
      exact ih

/-- C1 (counterexample): a regular tar entry literally named `a/.wh..opq`
does *not* empty directory `a`.  The handler strips the `.wh.` prefix
first and only then compares with `.wh..opq`, so the entry is treated as a
plain whiteout for the sibling `a/.opq`: `a/x` survives while `a/.opq` is
deleted. -/
theorem c1_counterexample :
    whiteout_entry_handler TarKind.regular ["a", ".wh..opq"]
        [(["a"], NodeKind.dir), (["a", "x"], NodeKind.file), (["a", ".opq"], NodeKind.file)] =
      .ok (true, [(["a"], NodeKind.dir), (["a", "x"], NodeKind.file)]) := rfl

/-- C1 (amended): the opaque-whiteout marker recognised by the extractor is
the file name `.wh..wh..opq` (whose `.wh.`-stripped remainder is
`.wh..opq`).  For a regular entry `dir/.wh..wh..opq` the handler empties
directory `dir` — every strict descendant of `dir` is deleted, `dir`
itself is kept — and reports the entry as consumed (not materialized). -/
theorem c1_amended_opaque (fs : Fs) (dir : PathC) :
    whiteout_entry_handler TarKind.regular (dir ++ [".wh..wh..opq"]) fs =
      .ok (true, fs.filter (fun n => !(dir.isPrefixOf n.1 && n.1 ≠ dir))) := by
  rw [show (".wh..wh..opq" : String) = ".wh." ++ ".wh..opq" from rfl,
    handler_wh_unfold, if_pos rfl]
  rfl

/-- C3: a regular whiteout entry `dir/.wh.b` (with `b` not the opaque
remainder) deletes the existing target `dir/b` from the destination —
recursively when it is a directory, as a single file otherwise — reports
the marker as consumed (so it is not materialized), the target is gone
afterwards, and nothing is added to the tree. -/
theorem c3_whiteout_removes_target (fs : Fs) (dir : PathC) (b : String) (k : NodeKind)
    (hb : b ≠ ".wh..opq") (hex : lookupNode fs (dir ++ [b]) = some k) :
    whiteout_entry_handler TarKind.regular (dir ++ [".wh." ++ b]) fs =
      .ok (true, fs.filter (fun n =>
        if k = NodeKind.dir then !((dir ++ [b]).isPrefixOf n.1) else n.1 ≠ dir ++ [b])) ∧
    lookupNode (fs.filter (fun n =>
        if k = NodeKind.dir then !((dir ++ [b]).isPrefixOf n.1) else n.1 ≠ dir ++ [b]))
      (dir ++ [b]) = none ∧
    (∀ n ∈ fs.filter (fun n =>
        if k = NodeKind.dir then !((dir ++ [b]).isPrefixOf n.1) else n.1 ≠ dir ++ [b]),
      n ∈ fs) := by
  refine ⟨?_, ?_, ?_⟩
  · rw [handler_wh_unfold, if_neg hb]
    cases k with
    | dir =>
      have hd : is_dir fs (dir ++ [b]) = true := by
        unfold is_dir
        rw [hex]
      rw [hd, if_pos rfl]
      have hrm : remove_dir_all fs (dir ++ [b]) =
          .ok (fs.filter (fun n => !((dir ++ [b]).isPrefixOf n.1))) := by
        unfold remove_dir_all
        rw [hex]
      rw [hrm]
      rfl
    | file =>
      have hd : is_dir fs (dir ++ [b]) = false := by
        unfold is_dir
        rw [hex]
      rw [hd, if_neg (show ¬(false = true) by simp)]
      have hrf : remove_file fs (dir ++ [b]) =
          .ok (fs.filter (fun n => n.1 ≠ dir ++ [b])) := by
        unfold remove_file
        rw [hex]
      rw [hrf]
      rfl
  · apply lookupNode_filter_none
    intro n hp
    by_cases hk : k = NodeKind.dir
    · rw [if_pos hk] at hp
      intro he
      rw [he] at hp
      have ht : (dir ++ [b]).isPrefixOf (dir ++ [b]) = true :=
        List.isPrefixOf_iff_prefix.mpr (List.prefix_refl _)
      rw [ht] at hp
      simp at hp
    · rw [if_neg hk] at hp
      exact of_decide_eq_true hp
  · intro n hn
    exact (List.mem_filter.mp hn).1

/-- C3 witness: the whiteout `a/.wh.b` deletes the file `a/b`. -/
theorem c3_witness :
    whiteout_entry_handler TarKind.regular (["a"] ++ [".wh." ++ "b"])
        [(["a"], NodeKind.dir), (["a", "b"], NodeKind.file)] =
      .ok (true, [(["a"], NodeKind.dir), (["a", "b"], NodeKind.file)].filter (fun n =>
        if NodeKind.file = NodeKind.dir then !((["a"] ++ ["b"]).isPrefixOf n.1)
        else n.1 ≠ ["a"] ++ ["b"])) :=
  (c3_whiteout_removes_target [(["a"], NodeKind.dir), (["a", "b"], NodeKind.file)]
    ["a"] "b" NodeKind.file (by decide) rfl).1

/-- C4 (counterexample): a whiteout `a/.wh.b` whose target `a/b` is absent
makes the handler fail — `remove_file` reports `NotFound` and the handler
surfaces it as `Cannot delete file: ...` — refuting that missing targets
are not an error. -/
theorem c4_counterexample :
    whiteout_entry_handler TarKind.regular ["a", ".wh.b"] [(["a"], NodeKind.dir)] =
      .error "Cannot delete file: No such file or directory" := rfl

/-- C4 (amended): whiteout handling for `dir/.wh.b` with no node at
`dir/b` returns the `Cannot delete file` error (the handler calls
`remove_file` unconditionally when the target is not a directory, and a
missing target makes it fail with `NotFound`). -/
theorem c4_amended_missing_target_errors (fs : Fs) (dir : PathC) (b : String)
    (hb : b ≠ ".wh..opq") (hmiss : lookupNode fs (dir ++ [b]) = none) :
    whiteout_entry_handler TarKind.regular (dir ++ [".wh." ++ b]) fs =
      .error "Cannot delete file: No such file or directory" := by
  rw [handler_wh_unfold, if_neg hb]
  have hd : is_dir fs (dir ++ [b]) = false := by
    unfold is_dir
    rw [hmiss]
  rw [hd, if_neg (show ¬(false = true) by simp)]
  have hrf : remove_file fs (dir ++ [b]) = .error "No such file or directory" := by
    unfold remove_file
    rw [hmiss]
  rw [hrf]
  rfl

/-- C4 witness: concrete missing target. -/
theorem c4_witness :
    whiteout_entry_handler TarKind.regular (["a"] ++ [".wh." ++ "b"]) [(["a"], NodeKind.dir)] =
      .error "Cannot delete file: No such file or directory" :=
  c4_amended_missing_target_errors [(["a"], NodeKind.dir)] ["a"] "b" (by decide) rfl

/-- C5 (counterexample): the handler skips only *regular* entries, so a tar
entry of type directory named `a/.wh.x` is materialized as-is: after
unpacking this one-layer manifest the destination holds a node whose name
begins with `.wh.` — refuting "regardless of the entry's tar entry
type". -/
theorem c5_counterexample :
    unpack_layers [] [[⟨TarKind.directory, ["a", ".wh.x"]⟩]] =
      .ok [(["a", ".wh.x"], NodeKind.dir)] ∧
    whNamedPath ["a", ".wh.x"] = true := ⟨rfl, rfl⟩

/-- C5 (amended): after unpacking every layer of a manifest, no node whose
name begins with `.wh.` exists in the destination, provided the initial
destination had none and every `.wh.`-named entry in every layer is of
regular-file type (the handler only intercepts regular entries: a
non-regular `.wh.`-named entry would be materialized). -/
theorem c5_amended_no_wh_after_unpack : ∀ (layers : List (List TarEntry)) (fs fs2 : Fs),
    (∀ n ∈ fs, whNamedPath n.1 = false) →
    (∀ l ∈ layers, ∀ e ∈ l, whNamedPath e.path = true → e.kind = TarKind.regular) →
    unpack_layers fs layers = .ok fs2 →
    ∀ n ∈ fs2, whNamedPath n.1 = false := by
  intro layers
  induction layers with
  | nil =>
    intro fs fs2 hfs _ h
    unfold unpack_layers at h
    simp only [Except.ok.injEq] at h
    exact h ▸ hfs
  | cons l rest ih =>
    intro fs fs2 hfs hl h
    unfold unpack_layers at h
    cases hal : applyLayer fs l with
    | error m =>
      rw [hal] at h
      simp at h
    | ok fsm =>
      rw [hal] at h
      simp only [] at h
      exact ih fsm fs2 (applyLayer_noWh l fs fsm hfs (hl l (by simp)) hal)
        (fun l2 h2 => hl l2 (List.mem_cons_of_mem _ h2)) h

/-- C5 witness: a two-layer image whose second layer whites out `etc/a`;
the surviving node `etc/b` carries no `.wh.` name. -/
theorem c5_witness : whNamedPath ["etc", "b"] = false :=
  c5_amended_no_wh_after_unpack
    [[⟨TarKind.regular, ["etc", "a"]⟩, ⟨TarKind.regular, ["etc", "b"]⟩],
     [⟨TarKind.regular, ["etc", ".wh.a"]⟩]]
    [] [(["etc", "b"], NodeKind.file)]
    (by simp) (by decide) rfl (["etc", "b"], NodeKind.file) (by simp)

end Docker

namespace Docker

example : parse_image "foo" =
    { registry := none, tag := none, image := "library/foo" } := by decide

example : parse_image "gcr.io/distroless/base" =
    { registry := some "gcr.io", tag := none, image := "distroless/base" } := by decide

example : parse_image "localhost:5000/myimg" =
    { registry := some "localhost:5000", tag := none, image := "myimg" } := by decide

example : parse_image "alpine:3.18" =
    { registry := none, tag := some "3.18", image := "library/alpine" } := by decide

example : parse_image "foo/bar" =
    { registry := none, tag := none, image := "foo/bar" } := by decide

example :
    whiteout_entry_handler TarKind.regular ["a", ".wh..opq"]
      [(["a"], NodeKind.dir), (["a", "x"], NodeKind.file), (["a", ".opq"], NodeKind.file)] =
    .ok (true, [(["a"], NodeKind.dir), (["a", "x"], NodeKind.file)]) := rfl

example :
    whiteout_entry_handler TarKind.regular ["a", ".wh..wh..opq"]
      [(["a"], NodeKind.dir), (["a", "x"], NodeKind.file)] =
    .ok (true, [(["a"], NodeKind.dir)]) := rfl

example :
    whiteout_entry_handler TarKind.regular ["a", ".wh.b"] [(["a"], NodeKind.dir)] =
    .error "Cannot delete file: No such file or directory" := rfl

end Docker
